import Mathlib

/-!
Verification development for the DC External Links app: the metafield
reconciliation logic of the admin save/delete actions, the loader's
legacy-format fallback, the auto-install gate, and the storefront
render/consume script (`custom_button.js`).  All definitions are shallow
embeddings of the corresponding source functions.
-/

namespace DCLinks

/-- One editable external-link record (`interface ExternalLink`). -/
structure ExternalLink where
  url : String
  text : String
  enabled : Bool
deriving Repr, DecidableEq

/-- The character set JavaScript's `String.prototype.trim` and the
regex class `\s` strip: WhiteSpace plus LineTerminator code points. -/
def isJsWhitespace (c : Char) : Bool :=
  c = ' ' || c = '\t' || c = '\n' || c = '\r' || c.toNat = 11 || c.toNat = 12 ||
  c.toNat = 160 || c.toNat = 5760 || (8192 ≤ c.toNat && c.toNat ≤ 8202) ||
  c.toNat = 8232 || c.toNat = 8233 || c.toNat = 8239 || c.toNat = 8287 ||
  c.toNat = 12288 || c.toNat = 65279

/-- JavaScript `s.trim()`. -/
def jsTrim (s : String) : String :=
  String.mk (((s.toList.dropWhile isJsWhitespace).reverse.dropWhile
    isJsWhitespace).reverse)

/-- Scan for `String.prototype.replace` with a global literal pattern:
left to right, non-overlapping, scanning resumes after each
replacement. -/
def replaceList (pat repl : List Char) : Nat → List Char → List Char
  | 0, cs => cs
  | fuel + 1, cs =>
    match cs with
    | [] => []
    | c :: rest =>
      if pat ≠ [] ∧ cs.take pat.length = pat then
        repl ++ replaceList pat repl fuel (cs.drop pat.length)
      else c :: replaceList pat repl fuel rest

/-- JavaScript `s.replace(/pat/g, repl)` for a literal pattern. -/
def replaceAll (s pat repl : String) : String :=
  String.mk (replaceList pat.toList repl.toList (s.toList.length + 1) s.toList)

/-- `isEmptyLink` from the admin UI: a link is empty iff its `url` is
falsy or blank after trimming (`!link.url || link.url.trim() === ''`). -/
def isEmptyLink (l : ExternalLink) : Bool :=
  l.url = "" || jsTrim l.url = ""

/-- The client-side normalization applied before every save
(`externalLinks.filter(link => !isEmptyLink(link))`). -/
def normalizeLinks (ls : List ExternalLink) : List ExternalLink :=
  ls.filter (fun l => !isEmptyLink l)

/-- Hex digit used when escaping control characters, as `JSON.stringify`. -/
def hexDigit (n : Nat) : Char :=
  if n < 10 then Char.ofNat (48 + n) else Char.ofNat (87 + n)

/-- Escape of one character inside a JSON string, as `JSON.stringify`. -/
def escChar (c : Char) : List Char :=
  if c = '"' then ['\\', '"']
  else if c = '\\' then ['\\', '\\']
  else if c = '\n' then ['\\', 'n']
  else if c = '\r' then ['\\', 'r']
  else if c = '\t' then ['\\', 't']
  else if c.toNat = 8 then ['\\', 'b']
  else if c.toNat = 12 then ['\\', 'f']
  else if c.toNat < 32 then
    ['\\', 'u', '0', '0', hexDigit (c.toNat / 16), hexDigit (c.toNat % 16)]
  else [c]

/-- JSON string literal for `s`, as produced by `JSON.stringify`. -/
def jsonQuote (s : String) : String :=
  String.mk ('"' :: s.toList.flatMap escChar ++ ['"'])

/-- `JSON.stringify` of one link object `{url, text, enabled}`
(field order as in the action's object literal). -/
def serializeLink (l : ExternalLink) : String :=
  "\x7b\"url\":" ++ jsonQuote l.url ++ ",\"text\":" ++ jsonQuote l.text ++
    ",\"enabled\":" ++ (if l.enabled then "true" else "false") ++ "\x7d"

/-- `JSON.stringify(externalLinks)`: the persisted `external_links` value. -/
def serializeLinks (ls : List ExternalLink) : String :=
  "[" ++ String.intercalate "," (ls.map serializeLink) ++ "]"

/-! ## JavaScript values and `JSON.parse`

The storefront script feeds arbitrary strings through `JSON.parse`
(with a legacy-format fallback).  `JVal` models the JavaScript values a
parse can produce, plus `undefined` for missing object properties. -/

/-- A JavaScript value as produced by `JSON.parse`, plus `undefined`.
Numbers are kept as mantissa and power-of-ten exponent. -/
inductive JVal where
  | null : JVal
  | undefined : JVal
  | bool : Bool → JVal
  | num : Int → Int → JVal
  | str : String → JVal
  | arr : List JVal → JVal
  | obj : List (String × JVal) → JVal
deriving Repr

/-- JavaScript truthiness of a value. -/
def jsTruthy : JVal → Bool
  | .null => false
  | .undefined => false
  | .bool b => b
  | .num m _ => m ≠ 0
  | .str s => s ≠ ""
  | .arr _ => true
  | .obj _ => true

/-- Property access `v[k]`: throws a TypeError on `null`/`undefined`,
yields the last binding on objects (later duplicate keys win, as in the
objects built by `JSON.parse`), and `undefined` on other primitives. -/
def getProp : JVal → String → Except Unit JVal
  | .null, _ => .error ()
  | .undefined, _ => .error ()
  | .obj fs, k => .ok (((fs.reverse).find? (fun p => p.1 = k)).elim JVal.undefined (fun p => p.2))
  | _, _ => .ok JVal.undefined

/-- JSON whitespace accepted between tokens by `JSON.parse`. -/
def isJsonWs (c : Char) : Bool :=
  c = ' ' || c = '\t' || c = '\n' || c = '\r'

/-- Drop leading JSON whitespace. -/
def skipWs (cs : List Char) : List Char :=
  cs.dropWhile isJsonWs

/-- Value of a hex digit, if any. -/
def hexVal (c : Char) : Option Nat :=
  if '0' ≤ c ∧ c ≤ '9' then some (c.toNat - 48)
  else if 'a' ≤ c ∧ c ≤ 'f' then some (c.toNat - 87)
  else if 'A' ≤ c ∧ c ≤ 'F' then some (c.toNat - 70)
  else none

/-- Body of a JSON string literal (after the opening quote): handles the
escape sequences `JSON.parse` accepts and rejects raw control characters.
Returns the decoded string and the remaining input. -/
def parseStringBody : Nat → List Char → List Char → Option (String × List Char)
  | 0, _, _ => none
  | _, [], _ => none
  | fuel + 1, c :: rest, acc =>
    if c = '"' then some (String.mk acc.reverse, rest)
    else if c = '\\' then
      match rest with
      | [] => none
      | e :: rest2 =>
        if e = '"' then parseStringBody fuel rest2 ('"' :: acc)
        else if e = '\\' then parseStringBody fuel rest2 ('\\' :: acc)
        else if e = '/' then parseStringBody fuel rest2 ('/' :: acc)
        else if e = 'b' then parseStringBody fuel rest2 (Char.ofNat 8 :: acc)
        else if e = 'f' then parseStringBody fuel rest2 (Char.ofNat 12 :: acc)
        else if e = 'n' then parseStringBody fuel rest2 ('\n' :: acc)
        else if e = 'r' then parseStringBody fuel rest2 ('\r' :: acc)
        else if e = 't' then parseStringBody fuel rest2 ('\t' :: acc)
        else if e = 'u' then
          match rest2 with
          | a :: b :: c2 :: d :: rest3 =>
            match hexVal a, hexVal b, hexVal c2, hexVal d with
            | some ha, some hb, some hc, some hd =>
              parseStringBody fuel rest3
                (Char.ofNat (((ha * 16 + hb) * 16 + hc) * 16 + hd) :: acc)
            | _, _, _, _ => none
          | _ => none
        else none
    else if c.toNat < 32 then none
    else parseStringBody fuel rest (c :: acc)

/-- Numeric value of a digit run. -/
def digitsToNat (ds : List Char) : Nat :=
  ds.foldl (fun a c => a * 10 + (c.toNat - 48)) 0

/-- A JSON number starting at the head of the input, per the JSON
grammar (optional minus, no superfluous leading zero, optional fraction
and exponent). -/
def parseNumberCs (cs : List Char) : Option (JVal × List Char) :=
  let (neg, cs1) := match cs with
    | '-' :: r => (true, r)
    | _ => (false, cs)
  match cs1 with
  | [] => none
  | c :: _ =>
    if !c.isDigit then none
    else
      let intPart := cs1.takeWhile Char.isDigit
      let rest1 := cs1.dropWhile Char.isDigit
      if intPart.length > 1 ∧ intPart.headD '0' = '0' then none
      else
        let step2 : Option (List Char × Int × List Char) :=
          match rest1 with
          | '.' :: r2 =>
            let fr := r2.takeWhile Char.isDigit
            if fr = [] then none
            else some (intPart ++ fr, -(fr.length : Int), r2.dropWhile Char.isDigit)
          | _ => some (intPart, 0, rest1)
        match step2 with
        | none => none
        | some (digits, e0, rest2) =>
          let step3 : Option (Int × List Char) :=
            match rest2 with
            | 'e' :: r3 =>
              let (esign, r4) := match r3 with
                | '+' :: r5 => ((1 : Int), r5)
                | '-' :: r5 => ((-1 : Int), r5)
                | _ => ((1 : Int), r3)
              let ed := r4.takeWhile Char.isDigit
              if ed = [] then none
              else some (esign * (digitsToNat ed : Int), r4.dropWhile Char.isDigit)
            | 'E' :: r3 =>
              let (esign, r4) := match r3 with
                | '+' :: r5 => ((1 : Int), r5)
                | '-' :: r5 => ((-1 : Int), r5)
                | _ => ((1 : Int), r3)
              let ed := r4.takeWhile Char.isDigit
              if ed = [] then none
              else some (esign * (digitsToNat ed : Int), r4.dropWhile Char.isDigit)
            | _ => some (0, rest2)
          match step3 with
          | none => none
          | some (e1, rest3) =>
            let m : Int := if neg then -(digitsToNat digits : Int) else (digitsToNat digits : Int)
            some (.num m (e0 + e1), rest3)

/-- The `\x7b` character. -/
def lbraceC : Char := Char.ofNat 123

/-- The `\x7d` character. -/
def rbraceC : Char := Char.ofNat 125

mutual

/-- One JSON value starting at the head of the (whitespace-stripped)
input, recursive-descent with fuel. -/
def pVal : Nat → List Char → Option (JVal × List Char)
  | 0, _ => none
  | fuel + 1, cs =>
    match skipWs cs with
    | 'n' :: 'u' :: 'l' :: 'l' :: r => some (.null, r)
    | 't' :: 'r' :: 'u' :: 'e' :: r => some (.bool true, r)
    | 'f' :: 'a' :: 'l' :: 's' :: 'e' :: r => some (.bool false, r)
    | c :: r =>
      if c = '"' then
        (parseStringBody (r.length + 1) r []).map (fun p => (.str p.1, p.2))
      else if c = '[' then
        match skipWs r with
        | ']' :: r2 => some (.arr [], r2)
        | _ => (pElems fuel r).map (fun p => (.arr p.1, p.2))
      else if c = lbraceC then
        match skipWs r with
        | c2 :: r2 =>
          if c2 = rbraceC then some (.obj [], r2)
          else (pMembers fuel r).map (fun p => (.obj p.1, p.2))
        | [] => none
      else parseNumberCs (c :: r)
    | [] => none

/-- Comma-separated array elements up to the closing bracket. -/
def pElems : Nat → List Char → Option (List JVal × List Char)
  | 0, _ => none
  | fuel + 1, cs =>
    match pVal fuel cs with
    | none => none
    | some (v, r) =>
      match skipWs r with
      | ',' :: r2 => (pElems fuel r2).map (fun p => (v :: p.1, p.2))
      | ']' :: r2 => some ([v], r2)
      | _ => none

/-- Comma-separated object members up to the closing brace. -/
def pMembers : Nat → List Char → Option (List (String × JVal) × List Char)
  | 0, _ => none
  | fuel + 1, cs =>
    match skipWs cs with
    | '"' :: r =>
      match parseStringBody (r.length + 1) r [] with
      | none => none
      | some (k, r2) =>
        match skipWs r2 with
        | ':' :: r3 =>
          match pVal fuel r3 with
          | none => none
          | some (v, r4) =>
            match skipWs r4 with
            | c5 :: r5 =>
              if c5 = ',' then (pMembers fuel r5).map (fun p => ((k, v) :: p.1, p.2))
              else if c5 = rbraceC then some ([(k, v)], r5)
              else none
            | [] => none
        | _ => none
    | _ => none

end

/-- `JSON.parse(s)`: `some` the parsed value, `none` when a SyntaxError
would be thrown. -/
def jsonParse (s : String) : Option JVal :=
  let cs := s.toList
  match pVal (2 * cs.length + 8) cs with
  | some (v, rest) => if skipWs rest = [] then some v else none
  | none => none

/-! ## Storefront fallback rewriting and rendering
(`renderExternalButtons` in `custom_button.js`) -/

/-- An apostrophe, kept out of string literals. -/
def aposC : Char := Char.ofNat 39

/-- The HTML-entity decoding chain applied before the second parse
attempt (`&quot; &#39; &amp; &lt; &gt;`, in the source's order). -/
def decodeEntities (s : String) : String :=
  replaceAll (replaceAll (replaceAll (replaceAll (replaceAll s
    "&quot;" "\"") "&#39;" (String.singleton aposC)) "&amp;" "&") "&lt;" "<")
    "&gt;" ">"

/-- Characters matched by the JavaScript regex class `\w`. -/
def isWordChar (c : Char) : Bool :=
  ('a' ≤ c ∧ c ≤ 'z') || ('A' ≤ c ∧ c ≤ 'Z') || ('0' ≤ c ∧ c ≤ '9') || c = '_'

/-- The global rewrite `([\x7b,]\s*)(\w+):` → `$1"$2":` that quotes bare
object keys after an opening brace or comma. -/
def quoteBareKeys : Nat → List Char → List Char
  | 0, cs => cs
  | fuel + 1, cs =>
    match cs with
    | [] => []
    | c :: rest =>
      if c = lbraceC || c = ',' then
        let ws := rest.takeWhile isJsWhitespace
        let afterWs := rest.dropWhile isJsWhitespace
        let word := afterWs.takeWhile isWordChar
        let afterWord := afterWs.dropWhile isWordChar
        match word, afterWord with
        | [], _ => c :: quoteBareKeys fuel rest
        | _ :: _, ':' :: after2 =>
          c :: (ws ++ '"' :: word ++ '"' :: ':' :: quoteBareKeys fuel after2)
        | _ :: _, _ => c :: quoteBareKeys fuel rest
      else c :: quoteBareKeys fuel rest

/-- The complete legacy-format rewrite tried after a failed strict parse:
decode entities, replace `=>` with `:`, then quote bare keys. -/
def fallbackRewrite (s : String) : String :=
  let d := replaceAll (decodeEntities s) "=>" ":"
  String.mk (quoteBareKeys (d.toList.length + 1) d.toList)

/-- The filter callback
`link => link.enabled && link.url && link.url.trim() !== ''`:
`error` models a thrown TypeError (property access on `null`/`undefined`,
or `.trim()` on a truthy non-string). -/
def linkPasses (l : JVal) : Except Unit Bool := do
  let e ← getProp l "enabled"
  if jsTruthy e then
    let u ← getProp l "url"
    if jsTruthy u then
      match u with
      | .str s => pure (jsTrim s ≠ "")
      | _ => .error ()
    else pure false
  else pure false

/-- `Array.prototype.filter` with a callback that may throw: elements
are visited left to right and the first throw aborts the whole call. -/
def exceptFilter (f : JVal → Except Unit Bool) : List JVal → Except Unit (List JVal)
  | [] => .ok []
  | x :: xs => do
    let b ← f x
    let r ← exceptFilter f xs
    pure (if b then x :: r else r)

/-- The buttons rendered from one parsed payload: the container is
cleared first, so a non-array value (`.filter` is not a function) or a
throwing element leaves the container empty. -/
def renderFromVal (v : JVal) : List JVal :=
  match v with
  | .arr xs =>
    match exceptFilter linkPasses xs with
    | .ok ls => ls
    | .error _ => []
  | _ => []

/-- End-to-end `renderExternalButtons` on a string payload: the early
return for a falsy/blank/`"[]"` payload, then strict `JSON.parse`, then
the fallback rewrite and a second parse; every failure path leaves zero
buttons.  The result lists the link objects a button is created for. -/
def renderedLinks (s : String) : List JVal :=
  if s = "" ∨ jsTrim s = "" ∨ s = "[]" then []
  else
    match jsonParse s with
    | some v => renderFromVal v
    | none =>
      match jsonParse (fallbackRewrite s) with
      | some v => renderFromVal v
      | none => []

/-! ## Storefront entry point (`init` in `custom_button.js`) -/

/-- One `.custom-external-button-container` element as the entry point
sees it: its `data-external-links` attribute, whether the
`#external-buttons-<id>` target div exists, and the target's current
rendered content. -/
structure Container where
  dataStr : String
  targetExists : Bool
  content : List JVal
deriving Repr

/-- What one `init` pass does to one container: when the payload is
non-empty, non-blank and not `"[]"` and the target div exists, the
content is overwritten with the freshly rendered buttons; otherwise the
container is left alone.  There is no processed-state check. -/
def initStep (c : Container) : Container :=
  if c.dataStr ≠ "" ∧ jsTrim c.dataStr ≠ "" ∧ c.dataStr ≠ "[]" ∧ c.targetExists then
    { c with content := renderedLinks c.dataStr }
  else c

/-- One call of the client entry point `init`: every container on the
page is processed. -/
def initModel (dom : List Container) : List Container :=
  dom.map initStep

/-! ## Admin save action (the metafield reconciler in the `"save"`
branch of the route action) -/

/-- One metafield already persisted under the `bl_custom_button`
namespace for the product, as returned by the existing-metafields
query (`id`, `key`, `value`, `type`). -/
structure ExistingMF where
  id : String
  key : String
  value : String
  mtype : String
deriving Repr, DecidableEq

/-- `keysToKeep`: always `external_links`, plus `hide_atc` when the
hide-add-to-cart flag is on. -/
def keysToKeep (hideAtc : Bool) : List String :=
  if hideAtc then ["external_links", "hide_atc"] else ["external_links"]

/-- `metafieldsToDelete`: every existing metafield whose key is not in
the target key set. -/
def metafieldsToDelete (existing : List ExistingMF) (hideAtc : Bool) : List ExistingMF :=
  existing.filter (fun mf => !(keysToKeep hideAtc).contains mf.key)

/-- `existingMetafieldMap.get(key)`: the map is built with
`new Map(existing.map(mf => [mf.key, mf]))`, so a later duplicate key
wins. -/
def mfLookup (existing : List ExistingMF) (k : String) : Option ExistingMF :=
  (existing.reverse).find? (fun mf => mf.key = k)

/-- One entry of the `productUpdate` metafields input: carries the
existing remote `id` when the key already existed (update-in-place)
and omits it otherwise (create). -/
structure MFWrite where
  id : Option String
  key : String
  value : String
  mtype : String
deriving Repr, DecidableEq

/-- `metafieldsToSave`: the `external_links` JSON value is always
pushed (even when the link array is empty), `hide_atc` only when the
flag is on. -/
def metafieldsToSave (existing : List ExistingMF) (links : List ExternalLink)
    (hideAtc : Bool) : List MFWrite :=
  let extW : MFWrite :=
    ⟨(mfLookup existing "external_links").map (fun mf => mf.id),
      "external_links", serializeLinks links, "json"⟩
  if hideAtc then
    [extW,
      ⟨(mfLookup existing "hide_atc").map (fun mf => mf.id),
        "hide_atc", "true", "single_line_text_field"⟩]
  else [extW]

/-- The writes issued by a save whose desired configuration is `links`
and `hideAtc`: the client filters out empty links
(`saveProductConfiguration`) before the action serializes them. -/
def fullSaveWrites (existing : List ExistingMF) (links : List ExternalLink)
    (hideAtc : Bool) : List MFWrite :=
  metafieldsToSave existing (normalizeLinks links) hideAtc

/-- Outcome of one remote GraphQL call: a normal response, a response
carrying `userErrors`, or a thrown transport error. -/
inductive Remote (α : Type) where
  | ok (v : α)
  | userErrors (msgs : List String)
  | thrown (msg : String)
deriving Repr

/-- The `{success, message} / {success:false, error}` result the action
returns to the UI. -/
inductive ActionOutcome where
  | success (msg : String)
  | failure (msg : String)
deriving Repr, DecidableEq

/-- Trace of one run of the save branch: whether the delete and upsert
mutations were issued, and the returned result. -/
structure SaveRun where
  deleteIssued : Bool
  upsertIssued : Bool
  outcome : ActionOutcome
deriving Repr, DecidableEq

/-- The upsert step of the save branch: a thrown transport error lands
in the action's catch-all (whose message prefix is the delete wording),
response `errors`/`userErrors` are joined into one `Failed to save`
message, and otherwise the save succeeds.  `metafieldsToSave` is never
empty, so the mutation is always issued. -/
def upsertPhase (delIssued : Bool) (upsertRes : Remote Unit) : SaveRun :=
  match upsertRes with
  | .thrown m =>
    ⟨delIssued, true, .failure ("Failed to delete product configuration: " ++ m)⟩
  | .userErrors msgs =>
    ⟨delIssued, true, .failure ("Failed to save: " ++ String.intercalate ", " msgs)⟩
  | .ok _ =>
    ⟨delIssued, true, .success "Product configuration saved successfully!"⟩

/-- The save branch of the action, from the computed delete set onward:
the delete mutation is issued first when its set is non-empty, but its
response is not inspected — only a thrown transport error (caught by
the action's catch-all) stops the save; then the upsert runs. -/
def runSave (existing : List ExistingMF) (hideAtc : Bool)
    (deleteRes upsertRes : Remote Unit) : SaveRun :=
  if metafieldsToDelete existing hideAtc ≠ [] then
    match deleteRes with
    | .thrown m =>
      ⟨true, false, .failure ("Failed to delete product configuration: " ++ m)⟩
    | _ => upsertPhase true upsertRes
  else upsertPhase false upsertRes

/-! ## Admin delete action (the `"delete"` branch) -/

/-- Trace of one run of the delete branch. -/
structure DeleteRun where
  deleteIssued : Bool
  outcome : ActionOutcome
deriving Repr, DecidableEq

/-- The delete branch, after fetching the existing metafield keys: with
no existing metafields no remote delete is issued and the action still
reports success; otherwise the delete mutation runs, a thrown transport
error is caught, and response `userErrors` fail the action. -/
def runDelete (title : String) (existingKeys : List String)
    (deleteRes : Remote Unit) : DeleteRun :=
  if existingKeys ≠ [] then
    match deleteRes with
    | .thrown m =>
      ⟨true, .failure ("Failed to delete product configuration: " ++ m)⟩
    | .userErrors _ =>
      ⟨true, .failure "Failed to delete product configuration"⟩
    | .ok _ =>
      ⟨true, .success ("Configuration for \"" ++ title ++ "\" has been removed successfully.")⟩
  else ⟨false, .success "Product configuration was already removed."⟩

/-! ## Loader product mapping (legacy-format fallback) -/

/-- `metafieldMap[k]`: the map is filled with
`metafields.forEach(mf => metafieldMap[mf.key] = mf.value)`, so a later
duplicate key wins. -/
def mapGet (mfs : List (String × String)) (k : String) : Option String :=
  ((mfs.reverse).find? (fun p => p.1 = k)).map (fun p => p.2)

/-- Strict comparison `v === true`. -/
def isBoolTrue : JVal → Bool
  | .bool true => true
  | _ => false

/-- `Array.prototype.find` with a predicate that may throw. -/
def exceptFind (f : JVal → Except Unit Bool) : List JVal → Except Unit (Option JVal)
  | [] => .ok none
  | x :: xs => do
    let b ← f x
    if b then pure (some x) else exceptFind f xs

/-- Property read used after a successful `find` (the element is known
not to be `null`/`undefined`, so the access cannot throw). -/
def getPropD (l : JVal) (k : String) : JVal :=
  match getProp l k with
  | .ok v => v
  | .error _ => .undefined

/-- `v || ""` on a field the UI stores as a string: a non-empty string
is kept, anything falsy gives the default (non-string truthy fields are
outside the UI's data model and also read as the default here). -/
def jsStrOr (v : JVal) (d : String) : String :=
  match v with
  | .str s => if s = "" then d else s
  | _ => d

/-- The loader's per-product record: the single-link display fields,
the flags, and the parsed `external_links` array. -/
structure LoadedProduct where
  externalUrl : String
  buttonText : String
  isEnabled : Bool
  hideAtc : Bool
  hasMetafields : Bool
  hasMultipleLinks : Bool
  externalLinks : List JVal
deriving Repr

/-- The array branch of the loader mapping: the `external_links` JSON
is parsed and the first link with `enabled === true` fills the display
fields — a parse error, a non-array value, or a throwing `find` leaves
them at their defaults.  Only the JSON value and the two flags feed
this branch; the legacy keys do not. -/
def loadFromArrayValue (v : String) (hideAtc hasMf : Bool) : LoadedProduct :=
  match jsonParse v with
  | some (.arr xs) =>
    match exceptFind (fun l => do
        let e ← getProp l "enabled"
        pure (isBoolTrue e)) xs with
    | .ok (some link) =>
      ⟨jsStrOr (getPropD link "url") "", jsStrOr (getPropD link "text") "",
        true, hideAtc, hasMf, xs.length > 1, xs⟩
    | .ok none => ⟨"", "", false, hideAtc, hasMf, xs.length > 1, xs⟩
    | .error _ => ⟨"", "", false, hideAtc, hasMf, xs.length > 1, xs⟩
  | some _ => ⟨"", "", false, hideAtc, hasMf, false, []⟩
  | none => ⟨"", "", false, hideAtc, hasMf, false, []⟩

/-- The legacy branch of the loader mapping: the three deprecated keys
are read directly. -/
def loadFromLegacyKeys (mfs : List (String × String)) : LoadedProduct :=
  ⟨(mapGet mfs "external_url").getD "", (mapGet mfs "button_text").getD "",
    mapGet mfs "is_enabled" = some "true",
    mapGet mfs "hide_atc" = some "true", mfs ≠ [], false, []⟩

/-- The loader's mapping of one product's `bl_custom_button`
metafields: when `external_links` is present and non-empty (a falsy
value fails the `if`) the array branch runs; otherwise the legacy keys
`button_text`, `external_url` and `is_enabled` are read. -/
def loadProduct (mfs : List (String × String)) : LoadedProduct :=
  match mapGet mfs "external_links" with
  | some v =>
    if v = "" then loadFromLegacyKeys mfs
    else loadFromArrayValue v (decide (mapGet mfs "hide_atc" = some "true"))
      (decide (mfs ≠ []))
  | none => loadFromLegacyKeys mfs

/-! ## Auto-install gate in the loader -/

/-- `checkAutoInstallStatus`: the sentinel exists iff the
`auto_install/block_installed` metafield query returns at least one
node. -/
def checkAutoInstallStatus (sentinelNodes : List String) : Bool :=
  sentinelNodes.length > 0

/-- Abstract trace of one invocation of `autoInstallAppBlock`: its
result fields, whether it reached `markAutoInstallComplete` (the
`installed` and `already_installed` paths do), and how many theme
reads/writes it issued. -/
structure AutoRun where
  success : Bool
  status : String
  marksSentinel : Bool
  themeReads : Nat
  themeWrites : Nat
deriving Repr

/-- What the loader's auto-install section produces. -/
structure LoaderInstallOut where
  blockAutoInstalled : Bool
  status : String
  sentinelAfter : Bool
  themeReads : Nat
  themeWrites : Nat
deriving Repr, DecidableEq

/-- The loader's auto-install section: the heuristic runs only when the
sentinel is absent and at least one configured product exists; with the
sentinel present the status becomes `previously_attempted` and nothing
is invoked; with no products the status stays `not_attempted`. -/
def loaderAutoInstall (sentinel : Bool) (numProducts : Nat) (run : AutoRun) :
    LoaderInstallOut :=
  if !sentinel && numProducts > 0 then
    ⟨run.success, run.status, sentinel || run.marksSentinel,
      run.themeReads, run.themeWrites⟩
  else if sentinel then ⟨false, "previously_attempted", sentinel, 0, 0⟩
  else ⟨false, "not_attempted", sentinel, 0, 0⟩

/-! ## Auxiliary predicates used by the theorems -/

/-- The Boolean the storefront filter callback yields on a
non-throwing element. -/
def passOk (l : JVal) : Bool :=
  match linkPasses l with
  | .ok b => b
  | .error _ => false

/-- Modelled from the spec's words for comparison (claim C3): the
renderer keeps exactly the entries whose `enabled` is strictly
`=== true` and whose `url` is non-blank. -/
def renderFilterSpec (xs : List JVal) : List JVal :=
  xs.filter (fun l =>
    isBoolTrue (getPropD l "enabled") &&
      (match getPropD l "url" with
       | .str s => decide (jsTrim s ≠ "")
       | _ => false))

/-- The payload used by the storefront counterexamples: one link whose
`enabled` field is the truthy string `"yes"` rather than `true`. -/
def truthyNotTrueLink : JVal :=
  .obj [("url", .str "https://a.com"), ("text", .str "A"), ("enabled", .str "yes")]

/-- A container whose target already holds rendered markup (two nodes)
from an earlier pass, with a payload that renders to one button. -/
def renderedContainer : Container :=
  ⟨"[\x7b\"url\":\"https://a.com\",\"text\":\"A\",\"enabled\":true\x7d]",
    true, [JVal.null, JVal.null]⟩

/-! ## Helper lemmas -/

theorem not_isEmptyLink_eq (l : ExternalLink) :
    (!isEmptyLink l) = decide (jsTrim l.url ≠ "") := by
  rcases l with ⟨u, t, e⟩
  simp only [isEmptyLink]
  by_cases h : u = ""
  · subst h; rfl
  · simp [h]

/-! ## C9 -/

/-- C9: `normalize` drops exactly the entries whose url is empty after
trimming and mutates no field of the remaining entries (it is a filter
of the input list); hence it is idempotent and every element of its
output has a non-blank url. -/
theorem normalize_drops_exactly_blank_urls (L : List ExternalLink) :
    normalizeLinks L = L.filter (fun l => decide (jsTrim l.url ≠ "")) ∧
    normalizeLinks (normalizeLinks L) = normalizeLinks L ∧
    ∀ l ∈ normalizeLinks L, jsTrim l.url ≠ "" := by
  refine ⟨?_, ?_, ?_⟩
  · unfold normalizeLinks
    exact List.filter_congr (fun l _ => not_isEmptyLink_eq l)
  · unfold normalizeLinks
    exact List.filter_eq_self.mpr (fun a ha => (List.mem_filter.mp ha).2)
  · intro l hl
    have h := (List.mem_filter.mp hl).2
    rw [not_isEmptyLink_eq] at h
    exact of_decide_eq_true h

/-- Witness for C9 at a concrete two-element list: the blank-url row is
dropped, the surviving row is untouched and its url is non-blank. -/
theorem normalize_drops_exactly_blank_urls_witness :
    normalizeLinks [⟨"https://a.com", "A", true⟩, ⟨" ", "B", false⟩] =
      [⟨"https://a.com", "A", true⟩] ∧
    jsTrim "https://a.com" ≠ "" :=
  ⟨by decide,
    (normalize_drops_exactly_blank_urls
      [⟨"https://a.com", "A", true⟩, ⟨" ", "B", false⟩]).2.2
      ⟨"https://a.com", "A", true⟩ (by decide)⟩

/-! ## C1 -/

/-- C1: when the desired links normalize to the empty sequence and
`hideAddToCart` is false, the save still upserts the `external_links`
metafield with the serialized empty array `"[]"` (every scheduled write
is that one entry, so the upsert list is non-empty), and
`external_links` is never among the keys scheduled for deletion. -/
theorem empty_config_save_upserts_empty_array
    (existing : List ExistingMF) (links : List ExternalLink)
    (h : normalizeLinks links = []) :
    fullSaveWrites existing links false ≠ [] ∧
    (∀ w ∈ fullSaveWrites existing links false,
      w.key = "external_links" ∧ w.value = "[]" ∧ w.mtype = "json") ∧
    ∀ mf ∈ metafieldsToDelete existing false, mf.key ≠ "external_links" := by
  unfold fullSaveWrites
  rw [h]
  refine ⟨?_, ?_, ?_⟩
  · simp [metafieldsToSave]
  · intro w hw
    simp only [metafieldsToSave, Bool.false_eq_true, if_false, List.mem_singleton] at hw
    subst hw
    exact ⟨rfl, rfl, rfl⟩
  · intro mf hmf
    have hk := (List.mem_filter.mp hmf).2
    simp [keysToKeep] at hk
    exact hk

/-- Witness for C1: a link list whose sole entry has a blank url
normalizes to empty, and the save still schedules a write. -/
theorem empty_config_save_upserts_empty_array_witness :
    normalizeLinks [⟨"", "B", true⟩] = [] ∧
    fullSaveWrites [⟨"gid1", "hide_atc", "true", "single_line_text_field"⟩]
      [⟨"", "B", true⟩] false ≠ [] :=
  ⟨by decide,
    (empty_config_save_upserts_empty_array
      [⟨"gid1", "hide_atc", "true", "single_line_text_field"⟩]
      [⟨"", "B", true⟩] (by decide)).1⟩

/-! ## C2 -/

/-- C2: with `hideAddToCart` true the scheduled writes include the
`hide_atc` key with value `"true"`; with it false no `hide_atc` write
is scheduled and any existing `hide_atc` entry (all existing entries
come from the `bl_custom_button` namespace query) is scheduled for
deletion. -/
theorem hide_atc_reconciliation (existing : List ExistingMF)
    (links : List ExternalLink) :
    (∃ w ∈ metafieldsToSave existing links true,
      w.key = "hide_atc" ∧ w.value = "true") ∧
    (∀ w ∈ metafieldsToSave existing links false, w.key ≠ "hide_atc") ∧
    ∀ mf ∈ existing, mf.key = "hide_atc" →
      mf ∈ metafieldsToDelete existing false := by
  refine ⟨?_, ?_, ?_⟩
  · exact ⟨⟨(mfLookup existing "hide_atc").map (fun mf => mf.id),
      "hide_atc", "true", "single_line_text_field"⟩,
      by simp [metafieldsToSave], rfl, rfl⟩
  · intro w hw
    simp only [metafieldsToSave, Bool.false_eq_true, if_false, List.mem_singleton] at hw
    subst hw
    simp
  · intro mf hmem hkey
    refine List.mem_filter.mpr ⟨hmem, ?_⟩
    simp [keysToKeep, hkey]

/-- Witness for C2: a concrete existing `hide_atc` entry is scheduled
for deletion when the flag is off. -/
theorem hide_atc_reconciliation_witness :
    (⟨"gid1", "hide_atc", "true", "single_line_text_field"⟩ : ExistingMF) ∈
      metafieldsToDelete [⟨"gid1", "hide_atc", "true", "single_line_text_field"⟩] false :=
  (hide_atc_reconciliation
    [⟨"gid1", "hide_atc", "true", "single_line_text_field"⟩] []).2.2
    _ (by decide) rfl

/-! ## C10 -/

/-- C10: with zero existing metafields in the product's namespace, the
delete branch issues no remote delete and still reports success with
the already-removed message, whatever the remote would have answered. -/
theorem delete_skips_remote_when_unconfigured (title : String)
    (res : Remote Unit) :
    runDelete title [] res =
      ⟨false, .success "Product configuration was already removed."⟩ := by
  simp [runDelete]

/-- Witness for C10 at a concrete title and remote outcome. -/
theorem delete_skips_remote_when_unconfigured_witness :
    runDelete "Example product" [] (.ok ()) =
      ⟨false, .success "Product configuration was already removed."⟩ :=
  delete_skips_remote_when_unconfigured "Example product" (.ok ())

/-! ## C6 -/

/-- C6: the auto-install heuristic is skipped entirely whenever the
sentinel exists (status `previously_attempted`, zero theme reads and
writes) or there are zero configured products; and when a first call
leaves the sentinel set, a second call is a no-op with no theme reads
or writes. -/
theorem auto_install_sentinel_gate (s : Bool) (n : Nat) (run run2 : AutoRun) :
    loaderAutoInstall true n run = ⟨false, "previously_attempted", true, 0, 0⟩ ∧
    (loaderAutoInstall s 0 run).themeReads = 0 ∧
    (loaderAutoInstall s 0 run).themeWrites = 0 ∧
    (loaderAutoInstall s 0 run).blockAutoInstalled = false ∧
    ((loaderAutoInstall false n run).sentinelAfter = true →
      loaderAutoInstall (loaderAutoInstall false n run).sentinelAfter n run2 =
        ⟨false, "previously_attempted", true, 0, 0⟩) := by
  refine ⟨by simp [loaderAutoInstall], ?_, ?_, ?_, ?_⟩
  · cases s <;> simp [loaderAutoInstall]
  · cases s <;> simp [loaderAutoInstall]
  · cases s <;> simp [loaderAutoInstall]
  · intro h
    rw [h]
    simp [loaderAutoInstall]

/-- Witness for C6: a concrete successful first call marks the
sentinel, and the second call is the no-op. -/
theorem auto_install_sentinel_gate_witness :
    loaderAutoInstall
      ((loaderAutoInstall false 1 ⟨true, "installed", true, 2, 1⟩).sentinelAfter)
      1 ⟨true, "installed", true, 2, 1⟩ =
      ⟨false, "previously_attempted", true, 0, 0⟩ :=
  (auto_install_sentinel_gate false 1 ⟨true, "installed", true, 2, 1⟩
    ⟨true, "installed", true, 2, 1⟩).2.2.2.2 rfl

/-! ## C7 -/

/-- C7: with no `external_links` key the loader reads the legacy keys
into the single-link display fields (`externalUrl`, `buttonText`,
`isEnabled`); when the array key is present and non-empty the result is
computed by the array branch alone, which never consults the legacy
keys; and a save only ever writes the `external_links` and `hide_atc`
keys, never the legacy ones. -/
theorem legacy_fallback_read :
    (∀ mfs, mapGet mfs "external_links" = none →
      (loadProduct mfs).externalUrl = (mapGet mfs "external_url").getD "" ∧
      (loadProduct mfs).buttonText = (mapGet mfs "button_text").getD "" ∧
      ((loadProduct mfs).isEnabled ↔ mapGet mfs "is_enabled" = some "true")) ∧
    (∀ mfs v, mapGet mfs "external_links" = some v → v ≠ "" →
      loadProduct mfs =
        loadFromArrayValue v (decide (mapGet mfs "hide_atc" = some "true"))
          (decide (mfs ≠ []))) ∧
    ∀ (existing : List ExistingMF) (links : List ExternalLink) (hAtc : Bool),
      ∀ w ∈ metafieldsToSave existing links hAtc,
        w.key = "external_links" ∨ w.key = "hide_atc" := by
  refine ⟨?_, ?_, ?_⟩
  · intro mfs h
    simp [loadProduct, h, loadFromLegacyKeys]
  · intro mfs v h hv
    simp [loadProduct, h, hv]
  · intro existing links hAtc w hw
    cases hAtc <;> simp [metafieldsToSave] at hw
    · subst hw; left; rfl
    · rcases hw with hw | hw <;> subst hw
      · left; rfl
      · right; rfl

/-- Witness for C7 at a concrete legacy-only metafield map. -/
theorem legacy_fallback_read_witness :
    (loadProduct [("button_text", "Buy now"), ("external_url", "https://x.com"),
      ("is_enabled", "true")]).externalUrl = "https://x.com" ∧
    (loadProduct [("button_text", "Buy now"), ("external_url", "https://x.com"),
      ("is_enabled", "true")]).buttonText = "Buy now" := by
  have h := legacy_fallback_read.1
    [("button_text", "Buy now"), ("external_url", "https://x.com"),
      ("is_enabled", "true")] (by rfl)
  exact ⟨h.1.trans (by rfl), h.2.1.trans (by rfl)⟩

/-! ## C5 -/

/-- Counterexample to C5: with one stale metafield to delete, a remote
`userError` answer to the delete mutation is ignored — the upsert still
runs and the save reports success, so a delete-step failure neither
aborts the save before the upsert nor surfaces any error message. -/
theorem delete_user_error_does_not_abort :
    (runSave [⟨"gid1", "hide_atc", "true", "single_line_text_field"⟩] false
        (.userErrors ["delete boom"]) (.ok ())).upsertIssued = true ∧
    (runSave [⟨"gid1", "hide_atc", "true", "single_line_text_field"⟩] false
        (.userErrors ["delete boom"]) (.ok ())).outcome =
      .success "Product configuration saved successfully!" := ⟨rfl, rfl⟩

/-- C5 as amended: a thrown transport error in the delete step aborts
the save before the upsert runs and is surfaced; upsert-step
errors/userErrors abort the save with the messages joined into the
returned error; a thrown transport error in the upsert step is surfaced
through the catch-all; but a remote `userError` answer to the delete
step is ignored — the run is identical to one whose delete succeeded.
No rollback step exists on any path. -/
theorem save_failure_semantics (existing : List ExistingMF) (hAtc : Bool)
    (m : String) (msgs : List String) (u : Remote Unit) :
    (metafieldsToDelete existing hAtc ≠ [] →
      runSave existing hAtc (.thrown m) u =
        ⟨true, false, .failure ("Failed to delete product configuration: " ++ m)⟩) ∧
    (runSave existing hAtc (.ok ()) (.userErrors msgs)).outcome =
      .failure ("Failed to save: " ++ String.intercalate ", " msgs) ∧
    (runSave existing hAtc (.ok ()) (.thrown m)).outcome =
      .failure ("Failed to delete product configuration: " ++ m) ∧
    runSave existing hAtc (.userErrors msgs) u = runSave existing hAtc (.ok ()) u := by
  by_cases h : metafieldsToDelete existing hAtc = [] <;>
    simp [runSave, h, upsertPhase]

/-- Witness for C5 (amended) : a delete-step transport error at a
concrete input aborts before the upsert. -/
theorem save_failure_semantics_witness :
    runSave [⟨"gid1", "hide_atc", "true", "single_line_text_field"⟩] false
        (.thrown "network down") (.ok ()) =
      ⟨true, false, .failure "Failed to delete product configuration: network down"⟩ :=
  (save_failure_semantics [⟨"gid1", "hide_atc", "true", "single_line_text_field"⟩]
    false "network down" [] (.ok ())).1 (by decide)

/-! ## C3 -/

theorem except_bind_ok {α β : Type} (a : α) (k : α → Except Unit β) :
    (Except.ok a >>= k) = k a := rfl

theorem except_bind_error {α β : Type} (k : α → Except Unit β) :
    ((Except.error () : Except Unit α) >>= k) = Except.error () := rfl

theorem except_pure {α : Type} (a : α) :
    (pure a : Except Unit α) = Except.ok a := rfl

/-- `Array.prototype.filter` over elements on which the callback never
throws is the plain filter by the callback's Boolean. -/
theorem exceptFilter_linkPasses_eq (xs : List JVal)
    (h : ∀ l ∈ xs, linkPasses l ≠ .error ()) :
    exceptFilter linkPasses xs = .ok (xs.filter passOk) := by
  induction xs with
  | nil => rfl
  | cons x xs ih =>
    have hx : linkPasses x ≠ .error () := h x (List.mem_cons_self x xs)
    have ih2 := ih (fun l hl => h l (List.mem_cons_of_mem x hl))
    match hfx : linkPasses x with
    | .error u => cases u; exact absurd hfx hx
    | .ok b =>
      have hp : passOk x = b := by simp [passOk, hfx]
      cases b <;>
        simp [exceptFilter, hfx, ih2, List.filter_cons, hp, except_bind_ok,
          except_pure]

/-- Counterexample to C3: an entry whose `enabled` field is the truthy
string `"yes"` (not strictly `=== true`) is still rendered — the code
filters by truthiness, so the rendered list differs from the
strict-equality filter the claim describes. -/
theorem truthy_enabled_still_rendered :
    (renderFromVal (.arr [truthyNotTrueLink])).length = 1 ∧
    (renderFilterSpec [truthyNotTrueLink]).length = 0 := ⟨rfl, rfl⟩

/-- C3 as amended: on any parsed array none of whose entries makes the
filter callback throw, the renderer creates one element exactly for the
entries whose `enabled` field is truthy and whose `url` is a non-blank
string, preserving array order (the result is a sublist of the
input). -/
theorem renderer_filters_truthy_enabled (xs : List JVal)
    (h : ∀ l ∈ xs, linkPasses l ≠ .error ()) :
    renderFromVal (.arr xs) = xs.filter passOk ∧
    (renderFromVal (.arr xs)).Sublist xs ∧
    ∀ l ∈ xs, passOk l =
      (jsTruthy (getPropD l "enabled") &&
        match getPropD l "url" with
        | .str s => decide (jsTrim s ≠ "")
        | _ => false) := by
  have heq : renderFromVal (.arr xs) = xs.filter passOk := by
    simp [renderFromVal, exceptFilter_linkPasses_eq xs h]
  refine ⟨heq, heq ▸ List.filter_sublist xs, ?_⟩
  intro l hl
  have hnl := h l hl
  match he : getProp l "enabled" with
  | .error u => cases u; simp [linkPasses, he, except_bind_error] at hnl
  | .ok e =>
    have hed : getPropD l "enabled" = e := by simp [getPropD, he]
    by_cases hte : jsTruthy e = true
    · match hu : getProp l "url" with
      | .error u =>
        cases u
        simp [linkPasses, he, hte, hu, except_bind_ok, except_bind_error] at hnl
      | .ok u =>
        have hud : getPropD l "url" = u := by simp [getPropD, hu]
        by_cases htu : jsTruthy u = true
        · match u with
          | .str s =>
            simp [passOk, linkPasses, he, hte, hu, hed, hud, htu,
              except_bind_ok, except_pure]
          | .null | .undefined | .bool _ | .num _ _ | .arr _ | .obj _ =>
            exact absurd
              (by simp [linkPasses, he, hte, hu, htu, except_bind_ok]) hnl
        · match u with
          | .str s =>
            have hs : s = "" := by
              by_contra hne
              exact htu (by simp [jsTruthy, hne])
            subst hs
            simp [passOk, linkPasses, he, hte, hu, hed, hud, jsTruthy,
              except_bind_ok, except_pure, jsTrim]
          | .null =>
            simp only [passOk, linkPasses, he, hte, hu, hed, hud,
              except_bind_ok, except_pure]
            rfl
          | .undefined =>
            simp only [passOk, linkPasses, he, hte, hu, hed, hud,
              except_bind_ok, except_pure]
            rfl
          | .bool b =>
            have hb : b = false := by simpa [jsTruthy] using htu
            subst hb
            simp only [passOk, linkPasses, he, hte, hu, hed, hud,
              except_bind_ok, except_pure]
            rfl
          | .num m e2 =>
            have hm : m = 0 := by simpa [jsTruthy] using htu
            subst hm
            simp only [passOk, linkPasses, he, hte, hu, hed, hud,
              except_bind_ok, except_pure]
            rfl
          | .arr a => simp [jsTruthy] at htu
          | .obj a => simp [jsTruthy] at htu
    · have hte2 : jsTruthy e = false := by simpa using hte
      simp [passOk, linkPasses, he, hed, hte2, except_bind_ok, except_pure]

/-- Witness for C3 (amended) at a concrete singleton list. -/
theorem renderer_filters_truthy_enabled_witness :
    renderFromVal (.arr [truthyNotTrueLink]) = [truthyNotTrueLink].filter passOk :=
  (renderer_filters_truthy_enabled [truthyNotTrueLink]
    (by
      intro l hl hc
      rw [List.mem_singleton] at hl
      subst hl
      rw [show linkPasses truthyNotTrueLink = Except.ok true from rfl] at hc
      exact Except.noConfusion hc)).1

/-! ## C4 -/

/-- C4: the storefront parse never escapes to the page and renders
nothing on total failure — the empty string, `"[]"` and unparseable
garbage all render zero elements; whenever both the strict parse and
the rewritten fallback parse fail the result is empty; and on a
non-blank, non-`"[]"` payload the strict `JSON.parse` result, when it
exists, is what gets rendered (the fallback is not consulted). -/
theorem parse_tolerates_malformed_payloads :
    renderedLinks "" = [] ∧
    renderedLinks "[]" = [] ∧
    renderedLinks "%%garbage%%" = [] ∧
    (∀ s, jsonParse s = none → jsonParse (fallbackRewrite s) = none →
      renderedLinks s = []) ∧
    ∀ s v, s ≠ "" → jsTrim s ≠ "" → s ≠ "[]" → jsonParse s = some v →
      renderedLinks s = renderFromVal v := by
  refine ⟨rfl, rfl, rfl, ?_, ?_⟩
  · intro s h1 h2
    by_cases hc : s = "" ∨ jsTrim s = "" ∨ s = "[]"
    · simp [renderedLinks, hc]
    · simp [renderedLinks, hc, h1, h2]
  · intro s v h1 h2 h3 h4
    have hc : ¬(s = "" ∨ jsTrim s = "" ∨ s = "[]") := by
      push_neg
      exact ⟨h1, h2, h3⟩
    simp [renderedLinks, hc, h4]

/-- Witness for C4 at a concrete unparseable payload that survives the
fallback rewrite unchanged. -/
theorem parse_tolerates_malformed_payloads_witness :
    renderedLinks "not-json" = [] :=
  parse_tolerates_malformed_payloads.2.2.2.1 "not-json" rfl rfl

/-! ## C8 -/

theorem initStep_idem (c : Container) : initStep (initStep c) = initStep c := by
  by_cases h : c.dataStr ≠ "" ∧ jsTrim c.dataStr ≠ "" ∧ c.dataStr ≠ "[]" ∧
      c.targetExists = true
  · simp [initStep, h]
  · simp [initStep, h]

/-- Counterexample to C8: a container whose target already holds
rendered markup (two nodes) is not skipped — a repeated `init` call
overwrites its content with the freshly rendered buttons (one node),
so the entry point does not operate only on not-yet-rendered
containers and checks no per-container processed state. -/
theorem init_reprocesses_rendered_container :
    (initStep renderedContainer).content.length = 1 ∧
    renderedContainer.content.length = 2 := ⟨rfl, rfl⟩

/-- C8 as amended: the entry point is safely callable any number of
times — each call re-processes every container with a renderable
payload, overwriting its content with the deterministic render result,
so a repeated call changes nothing (`init` is idempotent); containers
whose payload is falsy, blank or `"[]"`, or whose target div is
missing, are left alone.  There is no per-container processed-state
guard. -/
theorem init_idempotent_overwrite (dom : List Container) :
    initModel (initModel dom) = initModel dom ∧
    ∀ c ∈ dom,
      (c.dataStr = "" ∨ jsTrim c.dataStr = "" ∨ c.dataStr = "[]" ∨
        c.targetExists = false) → initStep c = c := by
  constructor
  · induction dom with
    | nil => rfl
    | cons c cs ih =>
      simp only [initModel, List.map_cons] at *
      rw [initStep_idem c, ih]
  · intro c _ h
    unfold initStep
    rw [if_neg]
    rintro ⟨h1, h2, h3, h4⟩
    rcases h with h | h | h | h
    · exact h1 h
    · exact h2 h
    · exact h3 h
    · rw [h] at h4
      exact Bool.false_ne_true h4

/-- Witness for C8 (amended): a second `init` call on a concrete page
with one already-rendered container changes nothing. -/
theorem init_idempotent_overwrite_witness :
    initModel (initModel [renderedContainer]) = initModel [renderedContainer] :=
  (init_idempotent_overwrite [renderedContainer]).1

end DCLinks
